import Mathlib

/-!
# Aura Alert: the audio recorder screen

A shallow embedding of `src/Frontend/screens/AudioRecorderScreen.js`.

The React component keeps its state in hooks (`recording`, `recordings`,
`currentlyPlayingIndex`, `ipAddress`); the handlers are async functions that
read the values captured at the last render and issue state updates and calls
to expo-av, `fetch` and `Alert`.  Here every handler is a function from the
world before the call to a `Completion`: the world after the call together
with the error of the rejected promise, if the handler threw.  Handlers are
run one after the other, each to completion, so the values a handler reads are
the values of the state it starts in.

Numbers are JavaScript numbers taken in exact arithmetic (`ℚ`).
Animation calls (`Animated.spring`, `Animated.timing`, `fadeAnim.setValue`)
change no state read by any handler and are left out.
-/

namespace AuraAlert

/-! ## Data model -/

/-- One element of the `recordings` array, the object literal built in
`stopRecording`. A sound object is named by a number; `color` and `text` are
`none` when the JavaScript property is `undefined`. -/
structure RecordingLine where
  sound : Nat
  duration : String
  file : String
  color : Option String
  text : Option String
  isPlaying : Bool
  deriving DecidableEq, Repr

/-- The live capture handle held in the `recording` state cell. -/
structure Recording where
  uri : String
  deriving DecidableEq, Repr

/-- A parsed JSON value, as produced by `response.json()`. -/
inductive Json where
  | null : Json
  | bool : Bool → Json
  | num : ℚ → Json
  | str : String → Json
  | arr : List Json → Json
  | obj : List (String × Json) → Json

/-- Second argument of `Alert.alert`: a literal text, or
`JSON.stringify` of a property value (`none` is `undefined`). -/
inductive AlertMessage where
  | text : String → AlertMessage
  | stringify : Option Json → AlertMessage

/-- Calls made to the outside world, in the order they are issued. -/
inductive Effect where
  | stopAsync : Nat → Effect
  | replayAsync : Nat → Effect
  | setOnPlaybackStatusUpdate : Nat → Effect
  | stopAndUnloadAsync : Recording → Effect
  | createNewLoadedSoundAsync : Recording → Effect
  | fetch : String → String → Effect
  | alert : String → AlertMessage → Effect
  | consoleError : String → Effect

/-- The hook state of the component that the handlers read and write. -/
structure Screen where
  recording : Option Recording
  recordings : List RecordingLine
  currentlyPlayingIndex : Option Nat
  ipAddress : String

/-- The screen together with the part of the outside world it acts on:
the sounds that are audibly playing and the log of calls issued so far. -/
structure World where
  screen : Screen
  playing : List Nat
  effects : List Effect

/-- Result of running an async handler to completion: the world it leaves and,
when its promise rejected, the error. -/
structure Completion where
  world : World
  threw : Option String

/-- The object returned by `sendAudioToServer` when it returns one. -/
structure Outcome where
  color : String
  text : String
  deriving DecidableEq, Repr

/-- What `fetch` does for one upload: the promise rejects, or a response
arrives whose body either fails to parse as JSON (`none`) or parses. -/
inductive FetchResult where
  | rejected : FetchResult
  | response : Option Json → FetchResult

/-- What the outside world answers during one `stopRecording` call. -/
structure StopEnv where
  stopAndUnloadAsync : Bool
  createNewLoadedSoundAsync : Option (Nat × ℚ)
  fetch : FetchResult

/-! ## State updates and outside calls -/

def World.emit (w : World) (e : Effect) : World :=
  { w with effects := w.effects ++ [e] }

def setRecording (r : Option Recording) (w : World) : World :=
  { w with screen := { w.screen with recording := r } }

def setCurrentlyPlayingIndex (i : Option Nat) (w : World) : World :=
  { w with screen := { w.screen with currentlyPlayingIndex := i } }

def setRecordings (f : List RecordingLine → List RecordingLine) (w : World) : World :=
  { w with screen := { w.screen with recordings := f w.screen.recordings } }

def setIpAddress (a : String) (w : World) : World :=
  { w with screen := { w.screen with ipAddress := a } }

/-- The call `sound.stopAsync()`: the sound is silent afterwards. -/
def stopAsync (s : Nat) (w : World) : World :=
  { w with playing := w.playing.filter (fun t => t != s),
           effects := w.effects ++ [Effect.stopAsync s] }

/-- The call `sound.replayAsync()`: the sound plays afterwards. -/
def replayAsync (s : Nat) (w : World) : World :=
  { w with playing := if s ∈ w.playing then w.playing else s :: w.playing,
           effects := w.effects ++ [Effect.replayAsync s] }

/-! ## getDurationFormatted (lines 83-89) -/

/-- JavaScript `Math.round`: the nearest integer, halves rounded up. -/
def mathRound (x : ℚ) : Int := ⌊x + 1 / 2⌋

/-- The function `getDurationFormatted(milliseconds)` with the divisions, the
subtraction and the product taken exactly. The source computes them in IEEE
doubles; the two agree on whole seconds and on the inputs evaluated below,
and can differ where the exact seconds fall on a half (60500 ms). -/
def getDurationFormatted (milliseconds : ℚ) : String :=
  let minutes : ℚ := milliseconds / 1000 / 60
  let seconds : Int := mathRound ((minutes - (⌊minutes⌋ : Int)) * 60)
  if seconds < 10 then
    toString ⌊minutes⌋ ++ ":0" ++ toString seconds
  else
    toString ⌊minutes⌋ ++ ":" ++ toString seconds

/-! ## togglePlayRecording (lines 63-81) -/

/-- The first `if` of `togglePlayRecording`: another index is playing, so
its entry is looked up and its sound stopped. The lookup of a missing entry
is `undefined`, and reading `.sound` of it throws. -/
def stopOther (index : Nat) (w : World) : Except String World :=
  match w.screen.currentlyPlayingIndex with
  | none => .ok w
  | some j =>
    if j ≠ index then
      match w.screen.recordings[j]? with
      | none => .error "TypeError: cannot read property sound of undefined"
      | some other => .ok (setCurrentlyPlayingIndex none (stopAsync other.sound w))
    else .ok w

def togglePlayRecording (recordingLine : RecordingLine) (index : Nat) (w : World) :
    Completion :=
  match stopOther index w with
  | .error e => { world := w, threw := some e }
  | .ok w1 =>
    if w.screen.currentlyPlayingIndex = some index then
      { world := setCurrentlyPlayingIndex none (stopAsync recordingLine.sound w1),
        threw := none }
    else
      { world := (replayAsync recordingLine.sound
            (setCurrentlyPlayingIndex (some index) w1)).emit
            (Effect.setOnPlaybackStatusUpdate recordingLine.sound),
        threw := none }

/-- The callback registered by `togglePlayRecording` (lines 75-79). -/
def onPlaybackStatusUpdate (didJustFinish : Bool) (w : World) : World :=
  if didJustFinish then setCurrentlyPlayingIndex none w else w

/-- The label of the play button of row `index` (line 139). -/
def playText (w : World) (index : Nat) : String :=
  if w.screen.currentlyPlayingIndex = some index then "Playing" else "Play"

/-- The `onPress` of the play button of row `index` (line 136): the row
exists only for an index of `recordings`. -/
def pressPlay (index : Nat) (w : World) : Completion :=
  match w.screen.recordings[index]? with
  | some recordingLine => togglePlayRecording recordingLine index w
  | none => { world := w, threw := none }

/-- Presses of play buttons, each run to completion before the next; the
run ends at the first press that throws. -/
def pressPlays (w : World) : List Nat → Completion
  | [] => { world := w, threw := none }
  | i :: rest =>
    match (pressPlay i w).threw with
    | some e => { world := (pressPlay i w).world, threw := some e }
    | none => pressPlays (pressPlay i w).world rest

/-! ## sendAudioToServer (lines 146-182) -/

/-- The last value stored under `key` in the members of a parsed object:
`JSON.parse` keeps the last of duplicate keys. -/
def lookupLast (key : String) : List (String × Json) → Option Json
  | [] => none
  | (k, v) :: rest =>
    match lookupLast key rest with
    | some later => some later
    | none => if k = key then some v else none

/-- The property read `result.prediction` on a parsed JSON value: it throws on
`null`, is `undefined` on a primitive or an array, and on an object is the
member named `prediction` when there is one. -/
def readPrediction : Json → Except String (Option Json)
  | Json.null => .error "TypeError: cannot read property prediction of null"
  | Json.obj members => .ok (lookupLast "prediction" members)
  | _ => .ok none

/-- The strict comparison of a property value with a string literal. -/
def strictEqString : Option Json → String → Bool
  | some (Json.str s), lit => s == lit
  | _, _ => false

def dangerous : Outcome :=
  { color := "#FFE6E6", text := "Dangerous sound detected. Alerting Police" }

def safe : Outcome :=
  { color := "#E6FFE6", text := "No dangerous sound detected" }

/-- The `catch` block of `sendAudioToServer` (lines 175-181). -/
def uploadFailed (w : World) : World :=
  (w.emit (Effect.consoleError "Error uploading file:")).emit
    (Effect.alert "Upload failed"
      (AlertMessage.text "An error occurred while uploading the file."))

/-- The function `sendAudioToServer(uri)`; `net` is what `fetch` and
`response.json()` do for this call. The result is the world after the call
and the returned object, `none` for `undefined`. -/
def sendAudioToServer (uri : String) (net : FetchResult) (w : World) :
    World × Option Outcome :=
  if w.screen.ipAddress = "" then (w, none)
  else
    let url := "http://" ++ w.screen.ipAddress ++ ":5000/predict"
    let w1 := w.emit (Effect.fetch url uri)
    match net with
    | FetchResult.rejected => (uploadFailed w1, none)
    | FetchResult.response none => (uploadFailed w1, none)
    | FetchResult.response (some result) =>
      match readPrediction result with
      | .error _ => (uploadFailed w1, none)
      | .ok prediction =>
        if strictEqString prediction "Dangerous sound detected. Alerting Police" then
          (w1.emit (Effect.alert "Alert" (AlertMessage.stringify prediction)),
            some dangerous)
        else
          (w1.emit (Effect.alert "Alert" (AlertMessage.stringify prediction)),
            some safe)

/-! ## stopRecording (lines 37-61) and clearRecordings (lines 183-186) -/

/-- The updater passed to `setRecordings` on line 53. -/
def appendRecording (newRecording : RecordingLine) (prevRecordings : List RecordingLine) :
    List RecordingLine :=
  prevRecordings ++ [newRecording]

/-- The function `stopRecording()`; `env` is what the recorder and the
network do during this call. `recording` is the handle captured at the last
render, so it is read from the world the call starts in. -/
def stopRecording (env : StopEnv) (w : World) : Completion :=
  let w1 := setRecording none w
  match w.screen.recording with
  | none =>
    { world := w1,
      threw := some "TypeError: cannot read property stopAndUnloadAsync of undefined" }
  | some recording =>
    let w2 := w1.emit (Effect.stopAndUnloadAsync recording)
    if env.stopAndUnloadAsync = false then
      { world := w2, threw := some "Error: stopAndUnloadAsync rejected" }
    else
      let w3 := w2.emit (Effect.createNewLoadedSoundAsync recording)
      match env.createNewLoadedSoundAsync with
      | none => { world := w3, threw := some "Error: createNewLoadedSoundAsync rejected" }
      | some (sound, durationMillis) =>
        match sendAudioToServer recording.uri env.fetch w3 with
        | (w4, none) =>
          { world := w4,
            threw := some "TypeError: cannot read property color of undefined" }
        | (w4, some outcome) =>
          let newRecording : RecordingLine :=
            { sound := sound,
              duration := getDurationFormatted durationMillis,
              file := recording.uri,
              color := some outcome.color,
              text := some outcome.text,
              isPlaying := false }
          { world := setRecordings (appendRecording newRecording) w4, threw := none }

def clearRecordings (w : World) : World :=
  setRecordings (fun _ => []) w

/-- The label of the action control (line 223). -/
def actionText (w : World) : String :=
  if w.screen.recording.isSome then "Stop Recording" else "Start Recording"

/-- The heading of row `index` of the list (line 112). -/
def recordingTitle (index : Nat) (recordingLine : RecordingLine) : String :=
  "Recording #" ++ toString (index + 1) ++ " | " ++ recordingLine.duration

/-- The background of a row (line 99): the entry's color, white without one. -/
def cardBackground (recordingLine : RecordingLine) : String :=
  match recordingLine.color with
  | some c => if c = "" then "#fff" else c
  | none => "#fff"

/-- The border of a row (lines 100-105). -/
def cardBorder (recordingLine : RecordingLine) : String :=
  if recordingLine.color = some "#FFE6E6" then "#FF4D4D"
  else if recordingLine.color = some "#E6FFE6" then "#66CC66"
  else "#fff"

/-! ## Properties and sample states -/

/-- The playing index, when set, is an index of `recordings`. -/
def IndexValid (w : World) : Prop :=
  ∀ j, w.screen.currentlyPlayingIndex = some j → j < w.screen.recordings.length

/-- Every sound that is audibly playing is the sound of the entry at the
playing index. -/
def OnlyCurrentSounds (w : World) : Prop :=
  ∀ s ∈ w.playing, ∃ i recordingLine,
    w.screen.currentlyPlayingIndex = some i ∧
    w.screen.recordings[i]? = some recordingLine ∧ recordingLine.sound = s

/-- A store of two recordings, nothing playing, no server address. -/
def twoRecordings : World :=
  { screen :=
      { recording := none,
        recordings :=
          [ { sound := 1, duration := "0:05", file := "file:///rec-1.m4a",
              color := some "#E6FFE6", text := some "No dangerous sound detected",
              isPlaying := false },
            { sound := 2, duration := "2:05", file := "file:///rec-2.m4a",
              color := some "#FFE6E6",
              text := some "Dangerous sound detected. Alerting Police",
              isPlaying := false } ],
        currentlyPlayingIndex := none,
        ipAddress := "" },
    playing := [],
    effects := [] }

/-- A screen with a server address configured and a capture in progress. -/
def capturing : World :=
  { screen :=
      { recording := some { uri := "file:///rec-3.m4a" },
        recordings := [],
        currentlyPlayingIndex := none,
        ipAddress := "10.0.0.5" },
    playing := [],
    effects := [] }

/-- The same screen with no server address configured. -/
def capturingUnconfigured : World :=
  setIpAddress "" capturing

/-- An environment in which the recorder finalizes a capture of 5 seconds
into sound 7 and the server answers with `net`. -/
def finalizes (net : FetchResult) : StopEnv :=
  { stopAndUnloadAsync := true,
    createNewLoadedSoundAsync := some (7, 5000),
    fetch := net }

def isFetch : Effect → Bool
  | Effect.fetch _ _ => true
  | _ => false

def isUploadFailedAlert : Effect → Bool
  | Effect.alert title _ => title == "Upload failed"
  | _ => false

/-- The two operations that write `recordings`. -/
inductive StoreOp where
  | append : RecordingLine → StoreOp
  | clear : StoreOp

/-- The update of line 53 for `append`, `clearRecordings` for `clear`. -/
def applyStoreOp (w : World) : StoreOp → World
  | StoreOp.append newRecording => setRecordings (appendRecording newRecording) w
  | StoreOp.clear => clearRecordings w

def runStoreOps (w : World) (ops : List StoreOp) : World :=
  ops.foldl applyStoreOp w

/-- The entries appended by a run of operations, in order. -/
def appendedEntries : List StoreOp → List RecordingLine
  | [] => []
  | StoreOp.append e :: rest => e :: appendedEntries rest
  | StoreOp.clear :: rest => appendedEntries rest

/-- The operations that follow the last `clear` of a run, `none` when the
run has no `clear`. -/
def afterLastClear : List StoreOp → Option (List StoreOp)
  | [] => none
  | op :: rest =>
    match afterLastClear rest with
    | some later => some later
    | none =>
      match op with
      | StoreOp.clear => some rest
      | StoreOp.append _ => none

/-- The list the specification describes: the entries appended since the last
clear, in insertion order; before any clear they follow the initial entries. -/
def entriesSinceLastClear (initial : List RecordingLine) (ops : List StoreOp) :
    List RecordingLine :=
  match afterLastClear ops with
  | some later => appendedEntries later
  | none => initial ++ appendedEntries ops

/-- A server that answers with the prediction "clear". -/
def answersClear : FetchResult :=
  FetchResult.response (some (Json.obj [("prediction", Json.str "clear")]))

/-- The store of two recordings with a server address, after the play button
of the second row was pressed. -/
def secondPlaying : World :=
  (pressPlay 1 (setIpAddress "10.0.0.5" twoRecordings)).world

/-- The state after `clearRecordings` while the second row plays. -/
def clearedWhilePlaying : World :=
  clearRecordings secondPlaying

/-- The state after one more capture was started (the update of line 27) and
stopped, the server answering "clear". -/
def recordedAfterClear : World :=
  (stopRecording (finalizes answersClear)
    (setRecording (some { uri := "file:///rec-3.m4a" }) clearedWhilePlaying)).world

/-- The entry that this capture stores. -/
def storedAfterClear : RecordingLine :=
  { sound := 7,
    duration := getDurationFormatted 5000,
    file := "file:///rec-3.m4a",
    color := some "#E6FFE6",
    text := some "No dangerous sound detected",
    isPlaying := false }

/-! ## Theorems -/

theorem toggle_of_none (recordingLine : RecordingLine) (index : Nat) (w : World)
    (h : w.screen.currentlyPlayingIndex = none) :
    togglePlayRecording recordingLine index w =
      { world := (replayAsync recordingLine.sound
          (setCurrentlyPlayingIndex (some index) w)).emit
          (Effect.setOnPlaybackStatusUpdate recordingLine.sound),
        threw := none } := by
  simp [togglePlayRecording, stopOther, h]

theorem toggle_of_same (recordingLine : RecordingLine) (index : Nat) (w : World)
    (h : w.screen.currentlyPlayingIndex = some index) :
    togglePlayRecording recordingLine index w =
      { world := setCurrentlyPlayingIndex none (stopAsync recordingLine.sound w),
        threw := none } := by
  simp [togglePlayRecording, stopOther, h]

theorem toggle_of_other (recordingLine other : RecordingLine) (index j : Nat) (w : World)
    (h : w.screen.currentlyPlayingIndex = some j) (hne : j ≠ index)
    (hj : w.screen.recordings[j]? = some other) :
    togglePlayRecording recordingLine index w =
      { world := (replayAsync recordingLine.sound
          (setCurrentlyPlayingIndex (some index)
            (setCurrentlyPlayingIndex none (stopAsync other.sound w)))).emit
          (Effect.setOnPlaybackStatusUpdate recordingLine.sound),
        threw := none } := by
  simp [togglePlayRecording, stopOther, h, hne, hj]

theorem toggle_of_dangling (recordingLine : RecordingLine) (index j : Nat) (w : World)
    (h : w.screen.currentlyPlayingIndex = some j) (hne : j ≠ index)
    (hj : w.screen.recordings[j]? = none) :
    togglePlayRecording recordingLine index w =
      { world := w,
        threw := some "TypeError: cannot read property sound of undefined" } := by
  simp [togglePlayRecording, stopOther, h, hne, hj]

/-- Stopping the one sound that may be playing leaves silence. -/
theorem filter_silent (l : List Nat) (s : Nat) (h : ∀ t ∈ l, t = s) :
    l.filter (fun t => t != s) = [] := by
  rw [List.filter_eq_nil_iff]
  intro t ht
  simp [h t ht]

/-- One press of a play button on a valid index, from a state that satisfies
both invariants: it returns, keeps `recordings`, and re-establishes both. -/
theorem pressPlay_step (w : World) (index : Nat)
    (hv : IndexValid w) (hs : OnlyCurrentSounds w)
    (hi : index < w.screen.recordings.length) :
    (pressPlay index w).threw = none ∧
    (pressPlay index w).world.screen.recordings = w.screen.recordings ∧
    IndexValid (pressPlay index w).world ∧
    OnlyCurrentSounds (pressPlay index w).world := by
  obtain ⟨line, hline⟩ : ∃ line, w.screen.recordings[index]? = some line :=
    ⟨w.screen.recordings[index], List.getElem?_eq_getElem hi⟩
  have hp : pressPlay index w = togglePlayRecording line index w := by
    simp [pressPlay, hline]
  rw [hp]
  cases hc : w.screen.currentlyPlayingIndex with
  | none =>
    have hsil : w.playing = [] := by
      apply List.eq_nil_iff_forall_not_mem.mpr
      intro s hsm
      obtain ⟨i, _, hcur, _⟩ := hs s hsm
      rw [hc] at hcur
      exact Option.noConfusion hcur
    rw [toggle_of_none line index w hc]
    refine ⟨rfl, rfl, ?_, ?_⟩
    · intro j hj
      simp [World.emit, replayAsync, setCurrentlyPlayingIndex] at hj
      subst hj
      exact hi
    · intro s hsm
      simp [World.emit, replayAsync, setCurrentlyPlayingIndex, hsil] at hsm
      exact ⟨index, line, rfl, hline, hsm.symm⟩
  | some j =>
    by_cases hji : j = index
    · subst hji
      have hsil : w.playing.filter (fun t => t != line.sound) = [] := by
        apply filter_silent
        intro t ht
        obtain ⟨i, l, hcur, hl, hsnd⟩ := hs t ht
        rw [hc] at hcur
        cases hcur
        rw [hline] at hl
        cases hl
        exact hsnd.symm
      rw [toggle_of_same line j w hc]
      refine ⟨rfl, rfl, ?_, ?_⟩
      · intro k hk
        simp [setCurrentlyPlayingIndex] at hk
      · intro s hsm
        simp [setCurrentlyPlayingIndex, stopAsync, hsil] at hsm
    · have hjlt : j < w.screen.recordings.length := hv j hc
      obtain ⟨other, hother⟩ : ∃ other, w.screen.recordings[j]? = some other :=
        ⟨w.screen.recordings[j], List.getElem?_eq_getElem hjlt⟩
      have hsil : w.playing.filter (fun t => t != other.sound) = [] := by
        apply filter_silent
        intro t ht
        obtain ⟨i, l, hcur, hl, hsnd⟩ := hs t ht
        rw [hc] at hcur
        cases hcur
        rw [hother] at hl
        cases hl
        exact hsnd.symm
      rw [toggle_of_other line other index j w hc hji hother]
      refine ⟨rfl, rfl, ?_, ?_⟩
      · intro k hk
        simp [World.emit, replayAsync, setCurrentlyPlayingIndex] at hk
        subst hk
        exact hi
      · intro s hsm
        simp [World.emit, replayAsync, setCurrentlyPlayingIndex, stopAsync, hsil] at hsm
        exact ⟨index, line, rfl, hline, hsm.symm⟩

/-- Any run of presses on valid indices from a state that satisfies both
invariants returns, keeps `recordings` and ends in such a state. -/
theorem pressPlays_run (idxs : List Nat) : ∀ (w : World),
    IndexValid w → OnlyCurrentSounds w →
    (∀ i ∈ idxs, i < w.screen.recordings.length) →
    (pressPlays w idxs).threw = none ∧
    (pressPlays w idxs).world.screen.recordings = w.screen.recordings ∧
    IndexValid (pressPlays w idxs).world ∧
    OnlyCurrentSounds (pressPlays w idxs).world := by
  induction idxs with
  | nil => intro w hv hs _; exact ⟨rfl, rfl, hv, hs⟩
  | cons i rest ih =>
    intro w hv hs hall
    obtain ⟨h1, h2, h3, h4⟩ := pressPlay_step w i hv hs (hall i (List.mem_cons_self i rest))
    have hrun : pressPlays w (i :: rest) = pressPlays (pressPlay i w).world rest := by
      simp [pressPlays, h1]
    rw [hrun]
    have hall2 : ∀ k ∈ rest, k < (pressPlay i w).world.screen.recordings.length := by
      intro k hk
      rw [h2]
      exact hall k (List.mem_cons_of_mem i hk)
    obtain ⟨g1, g2, g3, g4⟩ := ih (pressPlay i w).world h3 h4 hall2
    exact ⟨g1, g2.trans h2, g3, g4⟩

/-- C1: from a state where nothing is playing, after every call of a
sequence of play-button presses on valid indices (each run to completion),
the call has returned, at most one row is shown as Playing, the playing index
is null or an index of `recordings`, and every sound that is audibly playing
is the sound of the entry at the playing index. -/
theorem C1_at_most_one_playing (w : World) (idxs : List Nat)
    (hnone : w.screen.currentlyPlayingIndex = none) (hsilent : w.playing = [])
    (hvalid : ∀ i ∈ idxs, i < w.screen.recordings.length) (k : Nat) :
    (pressPlays w (idxs.take k)).threw = none ∧
    (∀ i j, playText (pressPlays w (idxs.take k)).world i = "Playing" →
      playText (pressPlays w (idxs.take k)).world j = "Playing" → i = j) ∧
    IndexValid (pressPlays w (idxs.take k)).world ∧
    OnlyCurrentSounds (pressPlays w (idxs.take k)).world := by
  have hv : IndexValid w := by
    intro j hj; rw [hnone] at hj; exact Option.noConfusion hj
  have hs : OnlyCurrentSounds w := by
    intro s hsm; rw [hsilent] at hsm; exact absurd hsm (List.not_mem_nil s)
  have hall : ∀ i ∈ idxs.take k, i < w.screen.recordings.length :=
    fun i hi => hvalid i (List.mem_of_mem_take hi)
  obtain ⟨g1, _, g3, g4⟩ := pressPlays_run (idxs.take k) w hv hs hall
  refine ⟨g1, ?_, g3, g4⟩
  intro i j hi hj
  unfold playText at hi hj
  split at hi
  · split at hj
    · rename_i h1 h2
      rw [h1] at h2
      exact Option.some.inj h2
    · exact absurd hj (by decide)
  · exact absurd hi (by decide)

theorem C1_at_most_one_playing_witness :
    (pressPlays twoRecordings ([0, 1, 1].take 2)).threw = none ∧
    (∀ i j, playText (pressPlays twoRecordings ([0, 1, 1].take 2)).world i = "Playing" →
      playText (pressPlays twoRecordings ([0, 1, 1].take 2)).world j = "Playing" → i = j) ∧
    IndexValid (pressPlays twoRecordings ([0, 1, 1].take 2)).world ∧
    OnlyCurrentSounds (pressPlays twoRecordings ([0, 1, 1].take 2)).world :=
  C1_at_most_one_playing twoRecordings [0, 1, 1] rfl rfl (by decide) 2

/-- Outcome of `togglePlayRecording(entry i, i)` in a state whose playing
index is null or an index of `recordings`: the call returns and, if `i` was
the playing index, the only call issued is the stop of its sound, the sound is
silent and the playing index is null; otherwise the playing index is `i`, the
sound of `i` plays, and when another entry `j` was playing the calls issued
are the stop of its sound, then the replay of the sound of `i`, then the
registration of the callback (and the sound of `j` is silent unless it is the
very sound of `i`); when only sounds of the playing entry were audible before,
the sound of `i` is the only audible one afterwards. Toggling `i` twice from a
state where nothing plays ends in a state where nothing plays. -/
theorem toggle_outcome_of_indexValid (w : World) (i : Nat) (recordingLine : RecordingLine)
    (hline : w.screen.recordings[i]? = some recordingLine) (hv : IndexValid w) :
    (togglePlayRecording recordingLine i w).threw = none ∧
    (w.screen.currentlyPlayingIndex = some i →
      (togglePlayRecording recordingLine i w).world.screen.currentlyPlayingIndex = none ∧
      recordingLine.sound ∉ (togglePlayRecording recordingLine i w).world.playing ∧
      (togglePlayRecording recordingLine i w).world.effects =
        w.effects ++ [Effect.stopAsync recordingLine.sound]) ∧
    (w.screen.currentlyPlayingIndex ≠ some i →
      (togglePlayRecording recordingLine i w).world.screen.currentlyPlayingIndex = some i ∧
      recordingLine.sound ∈ (togglePlayRecording recordingLine i w).world.playing ∧
      (OnlyCurrentSounds w →
        (togglePlayRecording recordingLine i w).world.playing = [recordingLine.sound]) ∧
      (∀ j other, w.screen.currentlyPlayingIndex = some j →
        w.screen.recordings[j]? = some other →
        (togglePlayRecording recordingLine i w).world.effects =
          w.effects ++ [Effect.stopAsync other.sound, Effect.replayAsync recordingLine.sound,
            Effect.setOnPlaybackStatusUpdate recordingLine.sound] ∧
        (other.sound ≠ recordingLine.sound →
          other.sound ∉ (togglePlayRecording recordingLine i w).world.playing))) ∧
    (w.screen.currentlyPlayingIndex = none → w.playing = [] →
      (togglePlayRecording recordingLine i
        (togglePlayRecording recordingLine i w).world).threw = none ∧
      (togglePlayRecording recordingLine i
        (togglePlayRecording recordingLine i w).world).world.screen.currentlyPlayingIndex
          = none ∧
      (togglePlayRecording recordingLine i
        (togglePlayRecording recordingLine i w).world).world.playing = []) := by
  have hi : i < w.screen.recordings.length := by
    rcases Nat.lt_or_ge i w.screen.recordings.length with h | h
    · exact h
    · rw [List.getElem?_eq_none h] at hline
      exact Option.noConfusion hline
  refine ⟨?_, ?_, ?_, ?_⟩
  · cases hc : w.screen.currentlyPlayingIndex with
    | none => rw [toggle_of_none recordingLine i w hc]
    | some j =>
      by_cases hji : j = i
      · subst hji; rw [toggle_of_same recordingLine j w hc]
      · have hjlt : j < w.screen.recordings.length := hv j hc
        obtain ⟨other, hother⟩ : ∃ other, w.screen.recordings[j]? = some other :=
          ⟨w.screen.recordings[j], List.getElem?_eq_getElem hjlt⟩
        rw [toggle_of_other recordingLine other i j w hc hji hother]
  · intro hc
    rw [toggle_of_same recordingLine i w hc]
    refine ⟨rfl, ?_, ?_⟩
    · simp [setCurrentlyPlayingIndex, stopAsync]
    · simp [setCurrentlyPlayingIndex, stopAsync]
  · intro hne
    cases hc : w.screen.currentlyPlayingIndex with
    | none =>
      rw [toggle_of_none recordingLine i w hc]
      refine ⟨rfl, ?_, ?_, ?_⟩
      · simp only [World.emit, replayAsync, setCurrentlyPlayingIndex]
        split <;> simp_all
      · intro hs
        have hsil : w.playing = [] := by
          apply List.eq_nil_iff_forall_not_mem.mpr
          intro s hsm
          obtain ⟨k, _, hcur, _⟩ := hs s hsm
          rw [hc] at hcur
          exact Option.noConfusion hcur
        simp [World.emit, replayAsync, setCurrentlyPlayingIndex, hsil]
      · intro j other hj
        exact Option.noConfusion hj
    | some j =>
      have hji : j ≠ i := fun h => hne (by rw [hc, h])
      have hjlt : j < w.screen.recordings.length := hv j hc
      obtain ⟨other, hother⟩ : ∃ other, w.screen.recordings[j]? = some other :=
        ⟨w.screen.recordings[j], List.getElem?_eq_getElem hjlt⟩
      rw [toggle_of_other recordingLine other i j w hc hji hother]
      refine ⟨rfl, ?_, ?_, ?_⟩
      · simp only [World.emit, replayAsync, setCurrentlyPlayingIndex]
        split <;> simp_all
      · intro hs
        have hsil : w.playing.filter (fun t => t != other.sound) = [] := by
          apply filter_silent
          intro t ht
          obtain ⟨k, l, hcur, hl, hsnd⟩ := hs t ht
          rw [hc] at hcur
          cases hcur
          rw [hother] at hl
          cases hl
          exact hsnd.symm
        simp [World.emit, replayAsync, setCurrentlyPlayingIndex, stopAsync, hsil]
      · intro j2 other2 hj2 hother2
        cases hj2
        rw [hother] at hother2
        cases hother2
        refine ⟨?_, ?_⟩
        · simp [World.emit, replayAsync, setCurrentlyPlayingIndex, stopAsync]
        · intro hdiff
          simp only [World.emit, replayAsync, setCurrentlyPlayingIndex, stopAsync]
          split
          · simp
          · simp [hdiff]
  · intro hc hsil
    rw [toggle_of_none recordingLine i w hc]
    rw [toggle_of_same recordingLine i _ (by simp [World.emit, replayAsync, setCurrentlyPlayingIndex])]
    refine ⟨rfl, rfl, ?_⟩
    simp [World.emit, replayAsync, setCurrentlyPlayingIndex, stopAsync, hsil]

/-- C2: in the state left by a clear during playback and one more capture,
row 0 is a valid row and the playing index is 1, which designates no entry;
`togglePlayRecording(entry 0, 0)` throws on the lookup of line 65, the playing
index stays 1 instead of becoming 0, no call reaches any sound, the sound of
row 0 does not play and the sound of the cleared entry keeps playing. -/
theorem C2_toggle_throws_on_dangling_index :
    recordedAfterClear.screen.recordings[0]? = some storedAfterClear ∧
    recordedAfterClear.screen.currentlyPlayingIndex = some 1 ∧
    (togglePlayRecording storedAfterClear 0 recordedAfterClear).threw =
      some "TypeError: cannot read property sound of undefined" ∧
    (togglePlayRecording storedAfterClear 0
      recordedAfterClear).world.screen.currentlyPlayingIndex = some 1 ∧
    (togglePlayRecording storedAfterClear 0 recordedAfterClear).world.playing = [2] ∧
    storedAfterClear.sound = 7 ∧
    (togglePlayRecording storedAfterClear 0 recordedAfterClear).world.effects.length =
      recordedAfterClear.effects.length := by
  refine ⟨rfl, rfl, rfl, rfl, rfl, rfl, rfl⟩

theorem strictEqString_iff (p : Option Json) (lit : String) :
    strictEqString p lit = true ↔ p = some (Json.str lit) := by
  unfold strictEqString
  split
  · rename_i s l
    simp
  · rename_i h
    constructor
    · intro hf; exact absurd hf (by simp)
    · intro hp
      exact (h lit hp).elim

theorem readPrediction_ok (result : Json) (h : result ≠ Json.null) :
    ∃ prediction, readPrediction result = .ok prediction := by
  cases result with
  | null => exact absurd rfl h
  | obj members => exact ⟨_, rfl⟩
  | bool b => exact ⟨_, rfl⟩
  | num q => exact ⟨_, rfl⟩
  | str s => exact ⟨_, rfl⟩
  | arr l => exact ⟨_, rfl⟩

/-- C3, counterexample: a response whose body is the JSON text `null`
parses, the read of `prediction` throws inside the `try`, and the call
returns no outcome, neither Dangerous nor Safe. -/
theorem C3_null_body_counterexample :
    capturing.screen.ipAddress ≠ "" ∧
    (sendAudioToServer "file:///rec-3.m4a"
      (FetchResult.response (some Json.null)) capturing).2 = none ∧
    (sendAudioToServer "file:///rec-3.m4a"
      (FetchResult.response (some Json.null)) capturing).2 ≠ some dangerous ∧
    (sendAudioToServer "file:///rec-3.m4a"
      (FetchResult.response (some Json.null)) capturing).2 ≠ some safe := by
  refine ⟨by decide, rfl, by decide, by decide⟩

/-- C3, amended: with a non-empty server address, for every response whose
JSON parses to a value other than `null`, `sendAudioToServer` returns the
Dangerous outcome (color "#FFE6E6", text "Dangerous sound detected. Alerting
Police") if and only if the `prediction` property of the parsed value is
exactly the string "Dangerous sound detected. Alerting Police", and the Safe
outcome (color "#E6FFE6", text "No dangerous sound detected") for every other
value of the property, a missing one included; of duplicate members the last
one counts and other members do not. A response whose JSON parses to `null`
is handled as a failed upload: after the `fetch`, the only calls are the
`console.error` and one "Upload failed" alert, and no outcome is returned.
The prediction "Dangerous sound detected. Alerting Police" gives Dangerous
and the prediction "clear" gives Safe. -/
theorem C3_sentinel_classification (w : World) (uri : String)
    (haddr : w.screen.ipAddress ≠ "") :
    (∀ result : Json, result ≠ Json.null →
      ((sendAudioToServer uri (FetchResult.response (some result)) w).2 = some dangerous ↔
        readPrediction result =
          .ok (some (Json.str "Dangerous sound detected. Alerting Police"))) ∧
      (readPrediction result ≠
          .ok (some (Json.str "Dangerous sound detected. Alerting Police")) →
        (sendAudioToServer uri (FetchResult.response (some result)) w).2 = some safe)) ∧
    dangerous = { color := "#FFE6E6", text := "Dangerous sound detected. Alerting Police" } ∧
    safe = { color := "#E6FFE6", text := "No dangerous sound detected" } ∧
    (sendAudioToServer uri (FetchResult.response (some (Json.obj
      [("prediction", Json.str "Dangerous sound detected. Alerting Police")]))) w).2
        = some dangerous ∧
    (sendAudioToServer uri (FetchResult.response (some (Json.obj
      [("prediction", Json.str "clear")]))) w).2 = some safe ∧
    (sendAudioToServer uri (FetchResult.response (some (Json.obj
      [("label", Json.str "Dangerous sound detected. Alerting Police"),
       ("prediction", Json.str "clear")]))) w).2 = some safe ∧
    (sendAudioToServer uri (FetchResult.response (some (Json.obj
      [("prediction", Json.str "clear"),
       ("prediction", Json.str "Dangerous sound detected. Alerting Police")]))) w).2
        = some dangerous ∧
    (sendAudioToServer uri (FetchResult.response (some (Json.obj
      [("label", Json.str "Dangerous sound detected. Alerting Police")]))) w).2
        = some safe ∧
    (sendAudioToServer uri (FetchResult.response (some
      (Json.str "Dangerous sound detected. Alerting Police"))) w).2 = some safe ∧
    (sendAudioToServer uri (FetchResult.response (some Json.null)) w).2 = none ∧
    (sendAudioToServer uri (FetchResult.response (some Json.null)) w).1.effects =
      w.effects ++
        [Effect.fetch ("http://" ++ w.screen.ipAddress ++ ":5000/predict") uri,
         Effect.consoleError "Error uploading file:",
         Effect.alert "Upload failed"
           (AlertMessage.text "An error occurred while uploading the file.")] := by
  refine ⟨?_, rfl, rfl, ?_, ?_, ?_, ?_, ?_, ?_, ?_, ?_⟩
  · intro result hresult
    obtain ⟨prediction, hp⟩ := readPrediction_ok result hresult
    by_cases hs : strictEqString prediction "Dangerous sound detected. Alerting Police" = true
    · have hpe := (strictEqString_iff _ _).mp hs
      have hres : (sendAudioToServer uri (FetchResult.response (some result)) w).2
          = some dangerous := by
        simp [sendAudioToServer, haddr, hp, hs]
      refine ⟨?_, ?_⟩
      · rw [hres, hp, hpe]; simp
      · intro hne; rw [hp, hpe] at hne; exact absurd rfl hne
    · have hpe : prediction ≠ some (Json.str "Dangerous sound detected. Alerting Police") :=
        fun e => hs ((strictEqString_iff _ _).mpr e)
      have hres : (sendAudioToServer uri (FetchResult.response (some result)) w).2
          = some safe := by
        simp [sendAudioToServer, haddr, hp, hs]
      refine ⟨?_, ?_⟩
      · rw [hres, hp]
        constructor
        · intro h; exact absurd h (by decide)
        · intro h; exact absurd (Except.ok.inj h) hpe
      · intro _; exact hres
  · simp [sendAudioToServer, haddr, readPrediction, lookupLast, strictEqString]
  · simp [sendAudioToServer, haddr, readPrediction, lookupLast, strictEqString]
  · simp [sendAudioToServer, haddr, readPrediction, lookupLast, strictEqString]
  · simp [sendAudioToServer, haddr, readPrediction, lookupLast, strictEqString]
  · simp [sendAudioToServer, haddr, readPrediction, lookupLast, strictEqString]
  · simp [sendAudioToServer, haddr, readPrediction, strictEqString]
  · simp [sendAudioToServer, haddr, readPrediction]
  · simp [sendAudioToServer, haddr, readPrediction, uploadFailed, World.emit]

theorem C3_sentinel_classification_witness :
    (sendAudioToServer "file:///rec-3.m4a" (FetchResult.response (some (Json.obj
      [("prediction", Json.str "clear")]))) capturing).2 = some safe :=
  (C3_sentinel_classification capturing "file:///rec-3.m4a" (by decide)).2.2.2.2.1

/-- C4: with the empty server address `sendAudioToServer` returns no outcome
and issues no call at all, so no `fetch`; `stopRecording` then throws while
destructuring the missing outcome, before its `setRecordings` update, and the
recording is not appended. -/
theorem C4_unconfigured_drops_recording :
    (sendAudioToServer "file:///rec-3.m4a" FetchResult.rejected capturingUnconfigured).2
      = none ∧
    ((sendAudioToServer "file:///rec-3.m4a" FetchResult.rejected
      capturingUnconfigured).1.effects.countP isFetch = 0) ∧
    ((stopRecording (finalizes FetchResult.rejected)
      capturingUnconfigured).world.effects.countP isFetch = 0) ∧
    (stopRecording (finalizes FetchResult.rejected) capturingUnconfigured).threw
      = some "TypeError: cannot read property color of undefined" ∧
    (stopRecording (finalizes FetchResult.rejected)
      capturingUnconfigured).world.screen.recordings = [] := by
  refine ⟨rfl, rfl, rfl, rfl, rfl⟩

/-- C5: when `fetch` rejects, or the body does not parse, `sendAudioToServer`
catches the failure, shows exactly one "Upload failed" alert and returns no
outcome; `stopRecording` then throws while destructuring the missing outcome,
before its `setRecordings` update, and the recording is not appended. -/
theorem C5_failed_upload_drops_recording :
    (sendAudioToServer "file:///rec-3.m4a" FetchResult.rejected capturing).2 = none ∧
    ((sendAudioToServer "file:///rec-3.m4a" FetchResult.rejected
      capturing).1.effects.countP isUploadFailedAlert = 1) ∧
    ((sendAudioToServer "file:///rec-3.m4a" (FetchResult.response none)
      capturing).1.effects.countP isUploadFailedAlert = 1) ∧
    (stopRecording (finalizes FetchResult.rejected) capturing).threw
      = some "TypeError: cannot read property color of undefined" ∧
    (stopRecording (finalizes FetchResult.rejected) capturing).world.screen.recordings
      = [] ∧
    (stopRecording (finalizes (FetchResult.response none)) capturing).threw
      = some "TypeError: cannot read property color of undefined" ∧
    (stopRecording (finalizes (FetchResult.response none))
      capturing).world.screen.recordings = [] := by
  refine ⟨rfl, rfl, rfl, rfl, rfl, rfl, rfl⟩

/-- The call `sendAudioToServer` writes no hook state. -/
theorem sendAudioToServer_screen (uri : String) (net : FetchResult) (w : World) :
    (sendAudioToServer uri net w).1.screen = w.screen := by
  unfold sendAudioToServer
  split
  · rfl
  · simp only
    split
    · rfl
    · rfl
    · split
      · rfl
      · split <;> rfl

/-- C8: after every `stopRecording` call, whatever the recorder and the
network do and whether the call returns or throws, the `recording` state is
undefined and the action control reads "Start Recording". -/
theorem C8_stop_returns_to_idle (env : StopEnv) (w : World) :
    (stopRecording env w).world.screen.recording = none ∧
    actionText (stopRecording env w).world = "Start Recording" := by
  have h : (stopRecording env w).world.screen.recording = none := by
    unfold stopRecording
    simp only
    cases hr : w.screen.recording with
    | none => rfl
    | some recording =>
      simp only
      split
      · rfl
      · cases hcr : env.createNewLoadedSoundAsync with
        | none => rfl
        | some p =>
          obtain ⟨sound, durationMillis⟩ := p
          simp only
          have hscreen := sendAudioToServer_screen recording.uri env.fetch
            ((setRecording none w).emit (Effect.stopAndUnloadAsync recording) |>.emit
              (Effect.createNewLoadedSoundAsync recording))
          generalize sendAudioToServer recording.uri env.fetch
            ((setRecording none w).emit (Effect.stopAndUnloadAsync recording) |>.emit
              (Effect.createNewLoadedSoundAsync recording)) = r at hscreen
          obtain ⟨w4, o⟩ := r
          simp only at hscreen
          cases o with
          | none => simp only; rw [hscreen]; rfl
          | some outcome => simp only [setRecordings]; rw [hscreen]; rfl
  refine ⟨h, ?_⟩
  unfold actionText
  rw [h]
  rfl

theorem runStoreOps_recordings (ops : List StoreOp) : ∀ w : World,
    (runStoreOps w ops).screen.recordings = entriesSinceLastClear w.screen.recordings ops := by
  induction ops with
  | nil => intro w; simp [runStoreOps, entriesSinceLastClear, afterLastClear, appendedEntries]
  | cons op rest ih =>
    intro w
    have hrun : runStoreOps w (op :: rest) = runStoreOps (applyStoreOp w op) rest := rfl
    rw [hrun, ih]
    unfold entriesSinceLastClear
    cases hal : afterLastClear rest with
    | some later => simp [afterLastClear, hal]
    | none =>
      cases op with
      | clear =>
        simp [afterLastClear, hal, applyStoreOp, clearRecordings, setRecordings,
          appendedEntries]
      | append e =>
        simp [afterLastClear, hal, applyStoreOp, appendRecording, setRecordings,
          appendedEntries]

theorem stopRecording_appends (env : StopEnv) (w : World)
    (h : (stopRecording env w).threw = none) :
    ∃ newRecording, (stopRecording env w).world.screen.recordings =
      appendRecording newRecording w.screen.recordings := by
  unfold stopRecording at h ⊢
  simp only at h ⊢
  cases hr : w.screen.recording with
  | none => rw [hr] at h; simp at h
  | some recording =>
    rw [hr] at h
    simp only at h ⊢
    by_cases hst : env.stopAndUnloadAsync = false
    · rw [if_pos hst] at h; simp at h
    · rw [if_neg hst] at h ⊢
      cases hcr : env.createNewLoadedSoundAsync with
      | none => rw [hcr] at h; simp at h
      | some p =>
        obtain ⟨sound, durationMillis⟩ := p
        rw [hcr] at h
        simp only at h ⊢
        have hscreen := sendAudioToServer_screen recording.uri env.fetch
          ((setRecording none w).emit (Effect.stopAndUnloadAsync recording) |>.emit
            (Effect.createNewLoadedSoundAsync recording))
        generalize sendAudioToServer recording.uri env.fetch
          ((setRecording none w).emit (Effect.stopAndUnloadAsync recording) |>.emit
            (Effect.createNewLoadedSoundAsync recording)) = r at h hscreen ⊢
        obtain ⟨w4, o⟩ := r
        cases o with
        | none => simp at h
        | some outcome =>
          refine ⟨RecordingLine.mk sound (getDurationFormatted durationMillis)
            recording.uri (some outcome.color) (some outcome.text) false, ?_⟩
          simp only [setRecordings]
          simp only at hscreen
          rw [hscreen]
          rfl

/-- C7: over every run of appends (the `setRecordings` update of
`stopRecording`) and `clearRecordings` calls, `recordings` is the list of the
entries appended since the last clear, in insertion order and unchanged (after
the initial entries when the run has no clear); an append keeps the entries
already there and puts the new one at the position equal to the previous
length, shown as "Recording #" followed by that position plus one; a
`stopRecording` call that returns performs exactly such an append;
`clearRecordings` gives the empty list and an append after it gives the list of
that one entry, at position 0. -/
theorem C7_append_only_with_clear :
    (∀ (w : World) (ops : List StoreOp),
      (runStoreOps w ops).screen.recordings =
        entriesSinceLastClear w.screen.recordings ops) ∧
    (∀ (w : World) (e : RecordingLine),
      (applyStoreOp w (StoreOp.append e)).screen.recordings = w.screen.recordings ++ [e] ∧
      (applyStoreOp w (StoreOp.append e)).screen.recordings[w.screen.recordings.length]?
        = some e ∧
      recordingTitle w.screen.recordings.length e =
        "Recording #" ++ toString (w.screen.recordings.length + 1) ++ " | " ++ e.duration) ∧
    (∀ (env : StopEnv) (w : World), (stopRecording env w).threw = none →
      ∃ e, (stopRecording env w).world.screen.recordings =
        (applyStoreOp w (StoreOp.append e)).screen.recordings) ∧
    (∀ w : World, (clearRecordings w).screen.recordings = []) ∧
    (∀ (w : World) (e : RecordingLine),
      (applyStoreOp (clearRecordings w) (StoreOp.append e)).screen.recordings = [e] ∧
      (applyStoreOp (clearRecordings w) (StoreOp.append e)).screen.recordings[0]? = some e) := by
  refine ⟨fun w ops => runStoreOps_recordings ops w, ?_, ?_, ?_, ?_⟩
  · intro w e
    refine ⟨rfl, ?_, rfl⟩
    simp [applyStoreOp, setRecordings, appendRecording]
  · intro env w h
    obtain ⟨e, he⟩ := stopRecording_appends env w h
    exact ⟨e, he⟩
  · intro w; rfl
  · intro w e
    exact ⟨rfl, rfl⟩

theorem C7_append_only_with_clear_witness :
    ∃ e, (stopRecording (finalizes answersClear) capturing).world.screen.recordings =
      (applyStoreOp capturing (StoreOp.append e)).screen.recordings :=
  C7_append_only_with_clear.2.2.1 (finalizes answersClear) capturing rfl

/-- C9: `clearRecordings` while the second of two rows plays leaves its sound
playing and the playing index at 1 although `recordings` is empty; after one
more capture is stored, the press of the play button of row 0 looks up
`recordings[1]`, finds no entry and throws. -/
theorem C9_clear_leaves_dangling_index :
    secondPlaying.screen.currentlyPlayingIndex = some 1 ∧
    secondPlaying.playing = [2] ∧
    clearedWhilePlaying.screen.recordings = [] ∧
    clearedWhilePlaying.screen.currentlyPlayingIndex = some 1 ∧
    clearedWhilePlaying.playing = [2] ∧
    recordedAfterClear.screen.recordings.length = 1 ∧
    recordedAfterClear.screen.currentlyPlayingIndex = some 1 ∧
    recordedAfterClear.screen.recordings[1]? = none ∧
    (pressPlay 0 recordedAfterClear).threw =
      some "TypeError: cannot read property sound of undefined" := by
  refine ⟨rfl, rfl, rfl, rfl, rfl, rfl, rfl, rfl, rfl⟩

theorem floor_minutes (n : ℕ) : ⌊(n : ℚ) / 1000 / 60⌋ = ((n / 60000 : ℕ) : ℤ) := by
  have h : (n : ℚ) / 1000 / 60 = ((n : ℤ) : ℚ) / ((60000 : ℕ) : ℚ) := by
    push_cast; ring
  rw [h, Rat.floor_intCast_div_natCast]
  norm_cast

theorem round_seconds (n : ℕ) :
    mathRound (((n : ℚ) / 1000 / 60 - (((n / 60000 : ℕ) : ℤ) : ℚ)) * 60)
      = (((n % 60000 + 500) / 1000 : ℕ) : ℤ) := by
  unfold mathRound
  have hn : (n : ℚ) = 60000 * ((n / 60000 : ℕ) : ℚ) + ((n % 60000 : ℕ) : ℚ) := by
    exact_mod_cast (Nat.div_add_mod n 60000).symm
  have h : ((n : ℚ) / 1000 / 60 - (((n / 60000 : ℕ) : ℤ) : ℚ)) * 60 + 1 / 2
      = (((n % 60000 + 500 : ℕ) : ℤ) : ℚ) / ((1000 : ℕ) : ℚ) := by
    simp only [Int.cast_natCast, Int.cast_add, Int.cast_ofNat, Nat.cast_add, Nat.cast_ofNat]
    generalize ((n / 60000 : ℕ) : ℚ) = q at hn
    generalize ((n % 60000 : ℕ) : ℚ) = r at hn
    rw [hn]; ring
  rw [h, Rat.floor_intCast_div_natCast]
  norm_cast

/-- Closed form of `getDurationFormatted` on a natural number of milliseconds. -/
theorem getDurationFormatted_nat (n : ℕ) :
    getDurationFormatted (n : ℚ) =
      if (n % 60000 + 500) / 1000 < 10 then
        toString (n / 60000) ++ ":0" ++ toString ((n % 60000 + 500) / 1000)
      else
        toString (n / 60000) ++ ":" ++ toString ((n % 60000 + 500) / 1000) := by
  unfold getDurationFormatted
  simp only [floor_minutes, round_seconds]
  have e : ∀ k : ℕ, toString ((k : ℕ) : ℤ) = toString k := fun k => rfl
  simp only [e]
  by_cases h : (n % 60000 + 500) / 1000 < 10
  · have h2 : (((n % 60000 + 500) / 1000 : ℕ) : ℤ) < 10 := by exact_mod_cast h
    rw [if_pos h, if_pos h2]
  · have h2 : ¬ (((n % 60000 + 500) / 1000 : ℕ) : ℤ) < 10 := by exact_mod_cast h
    rw [if_neg h, if_neg h2]

/-- C6: on a duration of `m` minutes and `s < 60` whole seconds,
`getDurationFormatted` returns the decimal of `m`, a colon, and `s` padded
with a zero to two digits; 125000 gives "2:05" and 5000 gives "0:05". -/
theorem C6_whole_seconds :
    (∀ m s : ℕ, s < 60 →
      getDurationFormatted ((1000 * (60 * m + s) : ℕ) : ℚ) =
        toString m ++ ":" ++ (if s < 10 then "0" ++ toString s else toString s)) ∧
    getDurationFormatted 125000 = "2:05" ∧
    getDurationFormatted 5000 = "0:05" := by
  refine ⟨?_, ?_, ?_⟩
  · intro m s hs
    rw [getDurationFormatted_nat]
    have h1 : 1000 * (60 * m + s) / 60000 = m := by omega
    have h2 : (1000 * (60 * m + s) % 60000 + 500) / 1000 = s := by omega
    rw [h1, h2]
    by_cases h : s < 10
    · rw [if_pos h, if_pos h]
      show toString m ++ (":" ++ "0") ++ toString s = _
      rw [← String.append_assoc, String.append_assoc (toString m ++ ":")]
    · rw [if_neg h, if_neg h]
  · have h := getDurationFormatted_nat 125000
    rw [Nat.cast_ofNat] at h
    rw [h]; decide
  · have h := getDurationFormatted_nat 5000
    rw [Nat.cast_ofNat] at h
    rw [h]; decide

theorem C6_whole_seconds_witness :
    getDurationFormatted ((1000 * (60 * 2 + 5) : ℕ) : ℚ) =
      toString 2 ++ ":" ++ (if 5 < 10 then "0" ++ toString 5 else toString 5) :=
  C6_whole_seconds.1 2 5 (by decide)

/-- C10: on 59999 milliseconds `getDurationFormatted` returns "0:60" and on
119800 milliseconds "1:60": the seconds are rounded to the nearest integer,
59.999 and 59.8 round to 60, and the minutes are not carried. -/
theorem C10_seconds_reach_sixty :
    getDurationFormatted 59999 = "0:60" ∧ getDurationFormatted 119800 = "1:60" := by
  constructor
  · have h := getDurationFormatted_nat 59999
    rw [Nat.cast_ofNat] at h
    rw [h]; decide
  · have h := getDurationFormatted_nat 119800
    rw [Nat.cast_ofNat] at h
    rw [h]; decide

end AuraAlert
